import Mathlib

/-!
Verification development for the Anachron narrative state engine.

Shallow embedding of the core state machines of the repository
(`src/game/time_machine.py`, `src/game/fulfillment.py`,
`src/game/choice_intent.py`, `src/game/event_parsing.py`,
`src/game/game_state.py`, `src/game/game_api.py`) together with proofs
about the claims of the specification.

Modelling conventions:
* Python `int` is modelled as `ℤ`.
* `random.random()` is modelled as an explicit rational roll `r` with
  `0 ≤ r < 1`; the float probability constants (0.30, 0.50, 0.75, 1.0)
  are modelled as exact rationals.
* `int(x)` applied to a float is truncation toward zero, modelled by
  `pyIntTrunc` on exact rationals.  For the retention rates 0.2 / 0.5 /
  0.6 and every anchor value in the reachable range 0..100 the exact
  rational truncation coincides with the source's double arithmetic
  (checked exhaustively against CPython).
* Text is modelled as `List Char`; `str.lower`/`str.strip` are modelled
  on the ASCII range, which covers every character the tags, pattern
  lists and claims mention.
-/

namespace Anachron

/-! ### Python primitives -/

/-- Truncation toward zero of a rational, the behaviour of Python `int(...)`
on a float value. -/
def pyIntTrunc (q : ℚ) : ℤ := if 0 ≤ q then ⌊q⌋ else -⌊-q⌋

/-- The characters Python `\s` (and `str.strip` / `str.isspace`) treats as
whitespace, restricted to ASCII. -/
def pyIsSpace (c : Char) : Bool :=
  c == ' ' || c == '\t' || c == '\n' || c == '\r' || c == '\x0b' || c == '\x0c'

/-- ASCII `str.lower` on a single character, written as an explicit table
so that facts about it follow by case analysis. -/
def pyLower (c : Char) : Char :=
  match c with
  | 'A' => 'a' | 'B' => 'b' | 'C' => 'c' | 'D' => 'd' | 'E' => 'e' | 'F' => 'f'
  | 'G' => 'g' | 'H' => 'h' | 'I' => 'i' | 'J' => 'j' | 'K' => 'k' | 'L' => 'l'
  | 'M' => 'm' | 'N' => 'n' | 'O' => 'o' | 'P' => 'p' | 'Q' => 'q' | 'R' => 'r'
  | 'S' => 's' | 'T' => 't' | 'U' => 'u' | 'V' => 'v' | 'W' => 'w' | 'X' => 'x'
  | 'Y' => 'y' | 'Z' => 'z'
  | other => other

/-- ASCII `str.upper` on a single character. -/
def pyUpper (c : Char) : Char :=
  match c with
  | 'a' => 'A' | 'b' => 'B' | 'c' => 'C' | 'd' => 'D' | 'e' => 'E' | 'f' => 'F'
  | 'g' => 'G' | 'h' => 'H' | 'i' => 'I' | 'j' => 'J' | 'k' => 'K' | 'l' => 'L'
  | 'm' => 'M' | 'n' => 'N' | 'o' => 'O' | 'p' => 'P' | 'q' => 'Q' | 'r' => 'R'
  | 's' => 'S' | 't' => 'T' | 'u' => 'U' | 'v' => 'V' | 'w' => 'W' | 'x' => 'X'
  | 'y' => 'Y' | 'z' => 'Z'
  | other => other

/-- Python `str.strip()`: drop leading and trailing whitespace. -/
def pyStrip (s : List Char) : List Char :=
  List.rdropWhile pyIsSpace (s.dropWhile pyIsSpace)

/-! ### `src/game/config.py` -/

/-- `WINDOW_MIN_TURNS` — minimum turns before a window can open. -/
def WINDOW_MIN_TURNS : ℤ := 7

/-- `WINDOW_DURATION_TURNS` — how long the player has to decide. -/
def WINDOW_DURATION_TURNS : ℤ := 3

/-- `WINDOW_PROBABILITIES.get(turn, 1.0)` — the fixed opening schedule,
with the dictionary's default of 1.0 for missing keys.  The float literals
0.30 / 0.50 / 0.75 / 1.00 are the exact rationals 3/10, 1/2, 3/4, 1,
written with `mkRat` so that they evaluate inside the kernel. -/
def windowProbLookup (turn : ℤ) : ℚ :=
  if turn = 7 then mkRat 3 10
  else if turn = 8 then mkRat 1 2
  else if turn = 9 then mkRat 3 4
  else if turn = 10 then 1
  else 1

/-! ### `src/game/time_machine.py` — `TimeMachine`

The display and indicator fields do not influence any claim; the fields
below are the ones read or written by `advance_turn`, `_open_window`,
`_close_window`, `travel` and `choose_to_stay`.  The source's
`_accumulated_probability` float is modelled as an exact rational. -/

structure TimeMachine where
  turns_since_last_window : ℤ := 0
  window_active : Bool := false
  window_turns_remaining : ℤ := 0
  eras_visited : List String := []
  total_turns : ℤ := 0
  accumulated_probability : ℚ := 0
deriving DecidableEq, Repr

/-- The dataclass defaults: a freshly constructed `TimeMachine()`. -/
def TimeMachine.init : TimeMachine := {}

/-- `TimeMachine._close_window`. -/
def TimeMachine.close_window (tm : TimeMachine) : TimeMachine :=
  { tm with
    window_active := false
    window_turns_remaining := 0
    turns_since_last_window := 0
    accumulated_probability := 0 }

/-- `TimeMachine.advance_turn`, with the call to `random.random()` made
explicit as the roll argument.  Returns (window-just-opened, new state). -/
def TimeMachine.advance_turn (tm : TimeMachine) (roll : ℚ) : Bool × TimeMachine :=
  let tm := { tm with
    total_turns := tm.total_turns + 1
    turns_since_last_window := tm.turns_since_last_window + 1 }
  if tm.window_active then
    let tm := { tm with window_turns_remaining := tm.window_turns_remaining - 1 }
    if tm.window_turns_remaining ≤ 0 then (false, tm.close_window) else (false, tm)
  else if tm.turns_since_last_window < WINDOW_MIN_TURNS then
    (false, tm)
  else
    let current_probability : ℚ :=
      if 10 ≤ tm.turns_since_last_window then 1
      else windowProbLookup tm.turns_since_last_window
    let tm := { tm with accumulated_probability := current_probability }
    if roll < current_probability then
      (true, { tm with
        window_active := true
        window_turns_remaining := WINDOW_DURATION_TURNS })
    else
      (false, tm)

/-- `TimeMachine.travel`. -/
def TimeMachine.travel (tm : TimeMachine) (new_era_id : String) : Bool × TimeMachine :=
  if !tm.window_active then (false, tm)
  else
    (true, { tm with
      eras_visited := tm.eras_visited ++ [new_era_id]
      window_active := false
      window_turns_remaining := 0
      turns_since_last_window := 0
      accumulated_probability := 0 })

/-- `TimeMachine.choose_to_stay`. -/
def TimeMachine.choose_to_stay (tm : TimeMachine) : TimeMachine :=
  tm.close_window

/-- One externally drivable operation of the `TimeMachine`. -/
inductive TMStep : TimeMachine → TimeMachine → Prop
  | advance (tm : TimeMachine) (r : ℚ) (h0 : 0 ≤ r) (h1 : r < 1) :
      TMStep tm (tm.advance_turn r).2
  | travel (tm : TimeMachine) (id : String) : TMStep tm (tm.travel id).2
  | stay (tm : TimeMachine) : TMStep tm tm.choose_to_stay

/-- States reachable from a freshly constructed machine. -/
inductive TMReachable : TimeMachine → Prop
  | init : TMReachable TimeMachine.init
  | step {tm tm' : TimeMachine} : TMReachable tm → TMStep tm tm' → TMReachable tm'

/-! ### `src/game/fulfillment.py` — `Anchor`, `AnchorLevel`, `FulfillmentState`

The source stores levels as the strings produced by `AnchorLevel.value`;
every reachable value of the `_last_*_level` fields is one of the six
enum strings (the dataclass default is `"none"`), so the fields are
modelled with the enum type directly.  History entries are the tuples
`(turn_number, reason, delta)`. -/

inductive AnchorLevel
  | NONE
  | EMERGING
  | GROWING
  | STRONG
  | ARRIVED
  | MASTERY
deriving DecidableEq, Repr

/-- The position of a level string in the source's
`level_order = ["none", "emerging", "growing", "strong", "arrived", "mastery"]`. -/
def levelOrderIdx : AnchorLevel → Nat
  | .NONE => 0
  | .EMERGING => 1
  | .GROWING => 2
  | .STRONG => 3
  | .ARRIVED => 4
  | .MASTERY => 5

/-- A single fulfillment anchor with history (`Anchor` dataclass). -/
structure Anchor where
  name : String
  value : ℤ := 0
  history : List (ℤ × String × ℤ) := []
deriving DecidableEq, Repr

/-- `Anchor.level` — the qualitative ladder. -/
def Anchor.level (a : Anchor) : AnchorLevel :=
  if 90 ≤ a.value then .MASTERY
  else if 80 ≤ a.value then .ARRIVED
  else if 60 ≤ a.value then .STRONG
  else if 40 ≤ a.value then .GROWING
  else if 20 ≤ a.value then .EMERGING
  else .NONE

/-- `ANCHORS[...]["arrival_threshold"]` is 70 for every anchor. -/
def ARRIVAL_THRESHOLD : ℤ := 70

/-- `Anchor.has_arrived`. -/
def Anchor.has_arrived (a : Anchor) : Bool := ARRIVAL_THRESHOLD ≤ a.value

/-- `Anchor.adjust` — clamp the new value into [0, 100] and record the
actual applied delta, appending to history only when it is non-zero. -/
def Anchor.adjust (a : Anchor) (delta : ℤ) (turn : ℤ) (reason : String) : Anchor :=
  let new_value := max 0 (min 100 (a.value + delta))
  let actual_delta := new_value - a.value
  { a with
    value := new_value
    history :=
      if actual_delta ≠ 0 then a.history ++ [(turn, reason, actual_delta)]
      else a.history }

/-- `Anchor.reset_for_new_era` — multiply the value by the retention rate
with Python `int(...)` truncation, and append the `era_transition` history
entry `(-1, "era_transition", value - int(value / retention_rate))`
computed from the already-updated value.  (The source computes both
quotients in double arithmetic; on the reachable value range 0..100 with
the rates 0.2 / 0.5 / 0.6 the truncated product below agrees with the
source exactly.) -/
def Anchor.reset_for_new_era (a : Anchor) (retention_rate : ℚ) : Anchor :=
  let new_value := pyIntTrunc ((a.value : ℚ) * retention_rate)
  { a with
    value := new_value
    history := a.history ++
      [(-1, "era_transition", new_value - pyIntTrunc ((new_value : ℚ) / retention_rate))] }

/-- A milestone record returned by `check_milestone_crossed`. -/
structure Milestone where
  anchor : String
  old_level : AnchorLevel
  new_level : AnchorLevel
  message : String
deriving DecidableEq, Repr

/-- `FulfillmentState._get_milestone_message`. -/
def milestoneMessage (anchor : String) (level : AnchorLevel) : String :=
  if anchor = "belonging" then
    match level with
    | .EMERGING => "You sense the first threads of connection forming."
    | .GROWING => "Familiar faces greet you now. This place knows you."
    | .STRONG => "You matter to people here. They would miss you."
    | .ARRIVED => "This could be home. These could be your people."
    | .MASTERY => "You belong here, completely and without doubt."
    | _ => "Something has shifted."
  else if anchor = "legacy" then
    match level with
    | .EMERGING => "Your actions are beginning to ripple outward."
    | .GROWING => "What you've started here will outlast this moment."
    | .STRONG => "Your mark on this place is becoming permanent."
    | .ARRIVED => "You've built something that will endure."
    | .MASTERY => "Your legacy here is complete and lasting."
    | _ => "Something has shifted."
  else if anchor = "freedom" then
    match level with
    | .EMERGING => "You're learning to move through this world unbound."
    | .GROWING => "The constraints of this era cannot hold you."
    | .STRONG => "You've carved out true independence here."
    | .ARRIVED => "You are free here, on your own terms."
    | .MASTERY => "Complete freedom is yours in this time."
    | _ => "Something has shifted."
  else "Something has shifted."

/-- `FulfillmentState._level_increased` — strictly higher position in the
level ladder.  (On the enum type every level is a valid ladder entry, so
the source's `ValueError` branch cannot arise.) -/
def level_increased (old_level new_level : AnchorLevel) : Bool :=
  levelOrderIdx old_level < levelOrderIdx new_level

/-- Stable insertion into a list sorted by strictly descending key: the new,
originally-earlier element goes in front of later elements with an equal
key, matching the stability of Python `list.sort`. -/
def insertDescBy {α β : Type} [LinearOrder β] (key : α → β) (x : α) :
    List α → List α
  | [] => [x]
  | y :: ys => if key y ≤ key x then x :: y :: ys else y :: insertDescBy key x ys

/-- Stable sort by descending key, the behaviour of Python
`list.sort(key=..., reverse=True)`. -/
def sortDescBy {α β : Type} [LinearOrder β] (key : α → β) : List α → List α
  | [] => []
  | x :: xs => insertDescBy key x (sortDescBy key xs)

/-- The three anchors of a journey (`FulfillmentState` dataclass), with the
milestone-tracking fields `_last_*_level`. -/
structure FulfillmentState where
  belonging : Anchor := { name := "Belonging" }
  legacy : Anchor := { name := "Legacy" }
  freedom : Anchor := { name := "Freedom" }
  current_turn : ℤ := 0
  last_belonging_level : AnchorLevel := .NONE
  last_legacy_level : AnchorLevel := .NONE
  last_freedom_level : AnchorLevel := .NONE
deriving DecidableEq, Repr

/-- A freshly constructed `FulfillmentState()`. -/
def FulfillmentState.init : FulfillmentState := {}

/-- `FulfillmentState.adjust` — adjust the named anchor at the current
turn.  (`get_anchor` on any other name raises in the source and is never
called with one; it is modelled as a no-op.) -/
def FulfillmentState.adjust (f : FulfillmentState) (anchor_name : String)
    (delta : ℤ) (reason : String) : FulfillmentState :=
  if anchor_name = "belonging" then
    { f with belonging := f.belonging.adjust delta f.current_turn reason }
  else if anchor_name = "legacy" then
    { f with legacy := f.legacy.adjust delta f.current_turn reason }
  else if anchor_name = "freedom" then
    { f with freedom := f.freedom.adjust delta f.current_turn reason }
  else f

/-- `FulfillmentState.advance_turn`. -/
def FulfillmentState.advance_turn (f : FulfillmentState) : FulfillmentState :=
  { f with current_turn := f.current_turn + 1 }

/-- `FulfillmentState.can_stay`. -/
def FulfillmentState.can_stay (f : FulfillmentState) : Bool :=
  f.belonging.has_arrived || f.legacy.has_arrived || f.freedom.has_arrived

/-- `FulfillmentState.dominant_anchor` — sort the three (name, value) pairs
by value descending (Python's sort is stable, so ties keep the listed
order belonging, legacy, freedom) and return the head's name when its
value is positive. -/
def FulfillmentState.dominant_anchor (f : FulfillmentState) : Option String :=
  let anchors := [("belonging", f.belonging.value), ("legacy", f.legacy.value),
    ("freedom", f.freedom.value)]
  match sortDescBy (fun x => x.2) anchors with
  | top :: _ => if 0 < top.2 then some top.1 else none
  | [] => none

/-- `FulfillmentState.transition_to_new_era` — apply the fixed retention
rates 0.2 / 0.5 / 0.6 and reset the milestone tracking to the post-decay
levels. -/
def FulfillmentState.transition_to_new_era (f : FulfillmentState) : FulfillmentState :=
  let f := { f with
    belonging := f.belonging.reset_for_new_era (0.2 : ℚ)
    legacy := f.legacy.reset_for_new_era (0.5 : ℚ)
    freedom := f.freedom.reset_for_new_era (0.6 : ℚ) }
  { f with
    last_belonging_level := f.belonging.level
    last_legacy_level := f.legacy.level
    last_freedom_level := f.freedom.level }

/-- The `milestones_crossed` list built inside `check_milestone_crossed`:
one entry per anchor whose level strictly increased since the last check,
in the order belonging, legacy, freedom. -/
def milestoneCandidates (f : FulfillmentState) : List Milestone :=
  (if level_increased f.last_belonging_level f.belonging.level then
    [{ anchor := "belonging", old_level := f.last_belonging_level,
       new_level := f.belonging.level,
       message := milestoneMessage "belonging" f.belonging.level }]
  else []) ++
  (if level_increased f.last_legacy_level f.legacy.level then
    [{ anchor := "legacy", old_level := f.last_legacy_level,
       new_level := f.legacy.level,
       message := milestoneMessage "legacy" f.legacy.level }]
  else []) ++
  (if level_increased f.last_freedom_level f.freedom.level then
    [{ anchor := "freedom", old_level := f.last_freedom_level,
       new_level := f.freedom.level,
       message := milestoneMessage "freedom" f.freedom.level }]
  else [])

/-- `FulfillmentState.check_milestone_crossed` — gather the anchors whose
level strictly increased since the last check, update the recorded levels,
and return the crossing with the highest new level (stable descending sort,
so belonging wins ties over legacy over freedom).  Returns the reported
milestone together with the updated state. -/
def FulfillmentState.check_milestone_crossed (f : FulfillmentState) :
    Option Milestone × FulfillmentState :=
  let f' := { f with
    last_belonging_level := f.belonging.level
    last_legacy_level := f.legacy.level
    last_freedom_level := f.freedom.level }
  match sortDescBy (fun m => levelOrderIdx m.new_level) (milestoneCandidates f) with
  | top :: _ => (some top, f')
  | [] => (none, f')

/-- `FulfillmentState.initialize_milestone_tracking`. -/
def FulfillmentState.initialize_milestone_tracking (f : FulfillmentState) :
    FulfillmentState :=
  { f with
    last_belonging_level := f.belonging.level
    last_legacy_level := f.legacy.level
    last_freedom_level := f.freedom.level }

/-- One requested `Anchor.adjust` call. -/
structure AdjustCall where
  delta : ℤ
  turn : ℤ
  reason : String

/-- Apply a sequence of `adjust` calls to an anchor that starts from
value 0 with empty history. -/
def applyAdjusts (calls : List AdjustCall) : Anchor :=
  calls.foldl (fun a c => a.adjust c.delta c.turn c.reason) { name := "Belonging" }

/-- A fulfillment state whose maximum anchor value is attained by two
anchors (belonging = legacy = 50, freedom = 0). -/
def C7cexFS : FulfillmentState :=
  { belonging := { name := "Belonging", value := 50 }
    legacy := { name := "Legacy", value := 50 }
    freedom := { name := "Freedom", value := 0 } }

/-- Trace for the milestone claim: a fresh state with milestone tracking
initialized, then belonging +20, check, −20, check, +20, check — all
within one initialize-cycle. -/
def C9s1 : FulfillmentState :=
  (FulfillmentState.init.initialize_milestone_tracking).adjust "belonging" 20 "helped"

/-- First check of the trace (reports the emerging milestone). -/
def C9c1 : Option Milestone × FulfillmentState := C9s1.check_milestone_crossed

/-- The trace after belonging −20. -/
def C9s2 : FulfillmentState := C9c1.2.adjust "belonging" (-20) "lost"

/-- Second check of the trace (no report: the level decreased). -/
def C9c2 : Option Milestone × FulfillmentState := C9s2.check_milestone_crossed

/-- The trace after belonging +20 again. -/
def C9s3 : FulfillmentState := C9c2.2.adjust "belonging" 20 "helped again"

/-- Third check of the trace (reports the same emerging milestone again). -/
def C9c3 : Option Milestone × FulfillmentState := C9s3.check_milestone_crossed

/-- The milestone record for belonging reaching the "emerging" level from
"none". -/
def C9emergingMilestone : Milestone :=
  { anchor := "belonging", old_level := .NONE, new_level := .EMERGING,
    message := milestoneMessage "belonging" .EMERGING }

/-! ### `src/game/game_state.py` — `GamePhase`, `EraState`, `GameState`

The `GameState` model keeps the fields read or written by `enter_era`,
`_save_era_to_history` and `set_last_turn`; player metadata, inventory,
timestamps and the event log are not touched by any claim and are
omitted.  Dict-valued payloads that no claim inspects (relationships,
conversation entries) are modelled as opaque strings. -/

inductive GamePhase
  | SETUP
  | ARRIVAL
  | LIVING
  | WINDOW_OPEN
  | STAYING
  | TRAVELING
  | ENDED
deriving DecidableEq, Repr

/-- A choice dict `{'id': 'A'|'B'|'C', 'text': ...}` as built by
`GameAPI._parse_choices`. -/
structure Choice where
  id : Char
  text : List Char
deriving DecidableEq, Repr

/-- An era record from the era catalog (`era["id"]`, `era["name"]`,
`era["year"]`, `era["location"]`). -/
structure EraInfo where
  id : String
  name : String
  year : ℤ
  location : String
deriving DecidableEq, Repr

/-- The `EraState` dataclass. -/
structure EraState where
  era_id : String
  era_name : String
  era_year : ℤ
  era_location : String
  turns_in_era : ℤ := 0
  character_name : Option String := none
  relationships : List String := []
  events : List String := []
  situation : String := ""
deriving DecidableEq, Repr

/-- One entry of `GameState.era_history` as appended by
`_save_era_to_history`. -/
structure EraSnapshot where
  era_id : String
  era_name : String
  turns : ℤ
  character_name : Option String
  relationships : List String
  events : List String
  belonging_value : ℤ
  legacy_value : ℤ
  freedom_value : ℤ
deriving DecidableEq, Repr

/-- The `GameState` slice relevant to the claims. -/
structure GameState where
  time_machine : TimeMachine := {}
  fulfillment : FulfillmentState := {}
  current_era : Option EraState := none
  era_history : List EraSnapshot := []
  conversation_history : List String := []
  phase : GamePhase := .SETUP
  last_narrative : List Char := []
  last_choices : List Choice := []
deriving DecidableEq, Repr

/-- `GameState._save_era_to_history` (a no-op without a current era). -/
def GameState.save_era_to_history (gs : GameState) : GameState :=
  match gs.current_era with
  | none => gs
  | some e =>
    { gs with era_history := gs.era_history ++
        [{ era_id := e.era_id, era_name := e.era_name, turns := e.turns_in_era,
           character_name := e.character_name, relationships := e.relationships,
           events := e.events,
           belonging_value := gs.fulfillment.belonging.value,
           legacy_value := gs.fulfillment.legacy.value,
           freedom_value := gs.fulfillment.freedom.value }] }

/-- `GameState.enter_era` — save the departed era to history, create the
new `EraState`, run the fulfillment transition when the era history is
non-empty (which it is whenever an era was just departed), force-close
the window, track the visited era, clear the conversation history and
enter the arrival phase. -/
def GameState.enter_era (gs : GameState) (era : EraInfo) : GameState :=
  let gs :=
    match gs.current_era with
    | some _ => gs.save_era_to_history
    | none => gs
  let new_era : EraState :=
    { era_id := era.id, era_name := era.name, era_year := era.year,
      era_location := era.location }
  let gs := { gs with current_era := some new_era }
  let gs :=
    if gs.era_history ≠ [] then
      { gs with fulfillment := gs.fulfillment.transition_to_new_era }
    else gs
  let tm : TimeMachine := { gs.time_machine with
    window_active := false
    window_turns_remaining := 0
    turns_since_last_window := 0
    accumulated_probability := 0 }
  let tm : TimeMachine :=
    if tm.eras_visited.contains era.id then tm
    else { tm with eras_visited := tm.eras_visited ++ [era.id] }
  { gs with
    time_machine := tm
    conversation_history := []
    phase := .ARRIVAL }

/-- `GameState.set_last_turn`. -/
def GameState.set_last_turn (gs : GameState) (narrative : List Char)
    (choices : List Choice) : GameState :=
  { gs with last_narrative := narrative, last_choices := choices }

/-- A session in its very first era: one era entered (the current one) and
nothing in the era history yet, with anchors at 77 / 60 / 50. -/
def C3gs : GameState :=
  { fulfillment :=
      { belonging := { name := "Belonging", value := 77 }
        legacy := { name := "Legacy", value := 60 }
        freedom := { name := "Freedom", value := 50 } }
    current_era := some
      { era_id := "ancient_egypt", era_name := "Ancient Egypt", era_year := -1250,
        era_location := "Thebes" }
    phase := .LIVING }

/-- The destination era of the first jump. -/
def C3newEra : EraInfo :=
  { id := "viking_age", name := "Viking Age", year := 875, location := "Norway" }

/-- A freshly started session: no current era, empty era history. -/
def C3freshGS : GameState := {}

/-! ### `src/game/event_parsing.py` and `src/game/fulfillment.py` — tag
stripping

`strip_anchor_tags` is `re.sub(r'<anchors>.*?</anchors>', ...)` with
IGNORECASE and DOTALL; the lazy middle makes a match at an occurrence of
the opening tag end at the *first* following occurrence of the closing
tag.  The event tag patterns `<tag>\s*[^<]*?\s*</tag>` have a middle that
cannot contain `<`, so a match at an opening tag is forced to close at
the first `<` after it, which must start the closing tag.  `re.sub` scans
the original string left to right and continues after each removed match.
The scan loops are written with a character-count fuel so that they are
structurally recursive and compute inside the kernel; one character is
consumed per step, so a fuel of `s.length` is always sufficient. -/

/-- Case-insensitive "the pattern (given lowercase) is a prefix of the
text", the effect of `re.IGNORECASE` on these all-ASCII tags. -/
def ciStartsWith : List Char → List Char → Bool
  | [], _ => true
  | _ :: _, [] => false
  | p :: ps, c :: cs => p == pyLower c && ciStartsWith ps cs

/-- Index of the first case-insensitive occurrence of `pat`. -/
def findCI (pat : List Char) : List Char → Option Nat
  | [] => none
  | c :: r => if ciStartsWith pat (c :: r) then some 0 else (findCI pat r).map (· + 1)

/-- Scan over non-`<` middle characters; the closing tag must start at the
first `<`.  Returns the middle length when the close is found there. -/
def findNonLtClose (close : List Char) : List Char → Option Nat
  | [] => none
  | c :: r =>
    if c == '<' then (if ciStartsWith close (c :: r) then some 0 else none)
    else (findNonLtClose close r).map (· + 1)

/-- The two middle shapes of the stripped tag patterns. -/
inductive TagMiddle
  | dotall
  | nonLt
deriving DecidableEq, Repr

/-- Where the closing tag of a match starting here ends: number of middle
characters before the close. -/
def findTagClose : TagMiddle → List Char → List Char → Option Nat
  | .dotall, close, s => findCI close s
  | .nonLt, close, s => findNonLtClose close s

/-- The `re.sub(tag-pattern, '', s)` scan: at each position, if the opening
tag (`o :: openRest`) starts here and a close is found, drop through the
close and continue after it; otherwise emit the character. -/
def stripTagOccAux (o : Char) (openRest closeT : List Char) (mk : TagMiddle) :
    Nat → List Char → List Char
  | 0, s => s
  | _ + 1, [] => []
  | fuel + 1, c :: r =>
    if ciStartsWith (o :: openRest) (c :: r) then
      match findTagClose mk closeT (r.drop openRest.length) with
      | some n =>
        stripTagOccAux o openRest closeT mk fuel
          ((r.drop openRest.length).drop (n + closeT.length))
      | none => c :: stripTagOccAux o openRest closeT mk fuel r
    else c :: stripTagOccAux o openRest closeT mk fuel r

/-- Remove every occurrence of the tag pattern from `s`. -/
def stripTagOcc (o : Char) (openRest closeT : List Char) (mk : TagMiddle)
    (s : List Char) : List Char :=
  stripTagOccAux o openRest closeT mk s.length s

/-- Index of the last newline of a list known to contain one. -/
def lastNewlineIdx (l : List Char) : Nat :=
  l.length - 1 - l.reverse.findIdx (fun c => c == '\n')

/-- The `re.sub(r'\n\s*\n\s*\n', '\n\n', s)` scan.  A match starts at the
first newline of a maximal whitespace run containing at least three
newlines and extends (greedily) to the run's last newline; the scan
continues after the match. -/
def blankSubAux : Nat → List Char → List Char
  | 0, s => s
  | _ + 1, [] => []
  | fuel + 1, c :: r =>
    if c == '\n' && decide (3 ≤ ((c :: r).takeWhile pyIsSpace).count '\n') then
      '\n' :: '\n' ::
        blankSubAux fuel ((c :: r).drop (lastNewlineIdx ((c :: r).takeWhile pyIsSpace) + 1))
    else c :: blankSubAux fuel r

/-- Collapse every multi-blank-line artifact. -/
def blankSub (s : List Char) : List Char := blankSubAux s.length s

/-- Is there a position where the blank-line pattern matches?  (Used to
state what "clean" means for idempotence.) -/
def hasBlankRun : List Char → Bool
  | [] => false
  | c :: r =>
    (c == '\n' && decide (3 ≤ ((c :: r).takeWhile pyIsSpace).count '\n')) || hasBlankRun r

/-- `strip_anchor_tags` of `fulfillment.py`. -/
def strip_anchor_tags (s : List Char) : List Char :=
  pyStrip (stripTagOcc '<' "anchors>".data "</anchors>".data .dotall s)

/-- `strip_event_tags` of `event_parsing.py`: remove the character-name,
key-NPC and wisdom tags, collapse blank-line artifacts, and strip. -/
def strip_event_tags (s : List Char) : List Char :=
  let s := stripTagOcc '<' "character_name>".data "</character_name>".data .nonLt s
  let s := stripTagOcc '<' "key_npc>".data "</key_npc>".data .nonLt s
  let s := stripTagOcc '<' "wisdom>".data "</wisdom>".data .nonLt s
  pyStrip (blankSub s)

/-- The composed tag stripping applied to generated text before display
and parsing (`GameAPI._parse_choices` lines 1683-1684): anchor tags, then
event tags. -/
def stripTags (s : List Char) : List Char := strip_event_tags (strip_anchor_tags s)

/-- Text whose stripped form splices the pieces around a removed anchor
tag into a brand-new anchor tag. -/
def C8cex : List Char := "<anch<anchors>hidden</anchors>ors>text</anchors>".data

/-- A text with one wisdom tag and no artifacts. -/
def C8cleanSample : List Char := "The elder nods. <wisdom>respected_customs</wisdom> Day ends.".data

/-! ### `src/game/choice_intent.py` — intent detection

The pattern lists use only three regex constructs: literal characters,
`.*` (any run of non-newline characters) and `\s*` (any run of whitespace
characters).  A pattern is modelled as a token list and `re.search` as an
existential scan over all start positions and gap lengths, implemented
with a fuel argument so that it is structurally recursive (the fuel
`tokens + text + 1` bounds the recursion depth, so it never runs out). -/

inductive Gap
  | dot
  | ws
deriving DecidableEq, Repr

inductive Tok
  | ch (c : Char)
  | gap (g : Gap)
deriving DecidableEq, Repr

/-- A literal pattern fragment. -/
def lit (s : String) : List Tok := s.data.map Tok.ch

/-- Which characters a gap may consume: `.` matches anything but a
newline, `\s` matches whitespace. -/
def gapCharOk : Gap → Char → Bool
  | .dot, c => !(c == '\n')
  | .ws, c => pyIsSpace c

/-- Does the token list match a prefix of the text?  Gap tokens try the
empty gap first and otherwise consume one admissible character, which
enumerates every possible gap length. -/
def reMatchAux : Nat → List Tok → List Char → Bool
  | 0, _, _ => false
  | _ + 1, [], _ => true
  | _ + 1, .ch _ :: _, [] => false
  | f + 1, .ch p :: ps, c :: cs => p == c && reMatchAux f ps cs
  | f + 1, .gap g :: ps, s =>
    reMatchAux f ps s ||
      (match s with
       | [] => false
       | c :: cs => gapCharOk g c && reMatchAux f (.gap g :: ps) cs)

/-- Match at the start of the text (each recursive step of `reMatchAux`
shortens tokens + text, so this fuel is always sufficient). -/
def reMatchAt (toks : List Tok) (s : List Char) : Bool :=
  reMatchAux (toks.length + s.length + 1) toks s

/-- `re.search`: the pattern matches at some start position. -/
def reSearch (toks : List Tok) : List Char → Bool
  | [] => reMatchAt toks []
  | c :: cs => reMatchAt toks (c :: cs) || reSearch toks cs

/-- `LEAVE_PATTERNS` of `choice_intent.py`. -/
def LEAVE_PATTERNS : List (List Tok) := [
  lit "activate" ++ [Tok.gap .dot] ++ lit "time" ++ [Tok.gap .ws] ++ lit "machine",
  lit "activate" ++ [Tok.gap .dot] ++ lit "device",
  lit "use" ++ [Tok.gap .dot] ++ lit "time" ++ [Tok.gap .ws] ++ lit "machine",
  lit "leave" ++ [Tok.gap .dot] ++ lit "era" ++ [Tok.gap .dot] ++ lit "behind",
  lit "leave this era",
  lit "travel" ++ [Tok.gap .dot] ++ lit "new era",
  lit "press" ++ [Tok.gap .dot] ++ lit "device",
  lit "time to leave",
  lit "depart" ++ [Tok.gap .dot] ++ lit "era"]

/-- `STAY_FOREVER_PATTERNS` of `choice_intent.py`. -/
def STAY_FOREVER_PATTERNS : List (List Tok) := [
  lit "stay" ++ [Tok.gap .dot] ++ lit "forever",
  lit "stay here forever",
  lit "this is" ++ [Tok.gap .dot] ++ lit "home now",
  lit "this is my home",
  lit "my home now",
  lit "remain" ++ [Tok.gap .dot] ++ lit "permanently",
  lit "never leave",
  lit "choose to stay" ++ [Tok.gap .dot] ++ lit "forever",
  lit "i choose to stay"]

inductive ChoiceIntent
  | LEAVE_ERA
  | STAY_FOREVER
  | CONTINUE_STORY
deriving DecidableEq, Repr

/-- The LEAVE-pattern loop of `detect_choice_intent`: some leave pattern
matches the lowered text. -/
def leave_match (t : List Char) : Bool :=
  LEAVE_PATTERNS.any (fun p => reSearch p (t.map pyLower))

/-- The STAY-FOREVER-pattern loop of `detect_choice_intent`. -/
def stay_forever_match (t : List Char) : Bool :=
  STAY_FOREVER_PATTERNS.any (fun p => reSearch p (t.map pyLower))

/-- `detect_choice_intent` — `Continue` whenever the window is closed or
the text is empty; otherwise the LEAVE patterns are tried first, then the
STAY-FOREVER patterns, and `Continue` if nothing matches. -/
def detect_choice_intent (choice_text : List Char) (window_open : Bool) : ChoiceIntent :=
  if !window_open then .CONTINUE_STORY
  else if choice_text.isEmpty then .CONTINUE_STORY
  else if leave_match choice_text then .LEAVE_ERA
  else if stay_forever_match choice_text then .STAY_FOREVER
  else .CONTINUE_STORY

/-- `filter_choices` — with the window closed every choice passes; with it
open, `stay_forever` choices are dropped unless the player is eligible. -/
def filter_choices (choices : List Choice) (window_open can_stay_meaningfully : Bool) :
    List Choice :=
  if !window_open then choices
  else choices.filter (fun choice =>
    !(detect_choice_intent choice.text window_open == .STAY_FOREVER &&
      !can_stay_meaningfully))

/-- A choice text that matches a pattern from both lists: "time to leave"
from the LEAVE list and "this is my home" / "my home now" from the
STAY-FOREVER list. -/
def C6bothText : List Char := "Time to leave. This is my home now.".data

/-! ### `src/game/game_api.py` — `_parse_choices` and the choice-handling
tail of `_process_story_turn` -/

/-- `re.sub(r'\*\*', '', s)` — remove markdown bold markers. -/
def subBold : List Char → List Char
  | '*' :: '*' :: r => subBold r
  | c :: r => c :: subBold r
  | [] => []

/-- `clean_response.split('\n')`. -/
def splitLines (s : List Char) : List (List Char) := s.splitOn '\n'

/-- Does the text start with `<[^>]+>` — an angle tag with a non-empty
middle free of `>`? -/
def isAngleTagAt : List Char → Bool
  | '<' :: rest =>
    match rest with
    | [] => false
    | d :: _ => !(d == '>') && !((rest.dropWhile (fun c => !(c == '>'))).isEmpty)
  | _ => false

/-- Index of the first position where `<[^>]+>` matches. -/
def findAngle : List Char → Option Nat
  | [] => none
  | c :: r => if isAngleTagAt (c :: r) then some 0 else (findAngle r).map (· + 1)

/-- `re.sub(r'\s*<[^>]+>.*$', '', t)` — delete from the first angle tag to
the end of the line, together with the whitespace run just before it. -/
def subAngleTrail (t : List Char) : List Char :=
  match findAngle t with
  | none => t
  | some j => List.rdropWhile pyIsSpace (t.take j)

/-- `re.sub(r'\s*SCORES:.*$', '', t)` with IGNORECASE — delete from the
first `SCORES:` fragment to the end of the line, together with the
whitespace run just before it. -/
def subScoresTrail (t : List Char) : List Char :=
  match findCI "scores:".data t with
  | none => t
  | some j => List.rdropWhile pyIsSpace (t.take j)

/-- One iteration of the `_parse_choices` line loop: strip the line, match
`^\[([A-C])\]\s*(.+)$` case-insensitively (the captured text is the
stripped remainder after the bracket), trim a trailing angle tag or
`SCORES:` fragment, and keep the choice only when more than 3 characters
remain. -/
def parseChoiceLine (line : List Char) : Option Choice :=
  match pyStrip line with
  | '[' :: x :: ']' :: rest =>
    if (x == 'A' || x == 'B' || x == 'C' || x == 'a' || x == 'b' || x == 'c')
        && !rest.isEmpty then
      let choice_text := pyStrip rest
      let choice_text := subAngleTrail choice_text
      let choice_text := subScoresTrail choice_text
      if !choice_text.isEmpty && decide (3 < choice_text.length) then
        some { id := pyUpper x, text := choice_text }
      else none
    else none
  | _ => none

/-- `GameAPI._parse_choices` — strip anchor and event tags and bold
markers, parse each line, and keep at most three choices. -/
def parse_choices (response : List Char) : List Choice :=
  let clean_response := strip_anchor_tags response
  let clean_response := strip_event_tags clean_response
  let clean_response := subBold clean_response
  ((splitLines clean_response).filterMap parseChoiceLine).take 3

/-- The choice-handling tail of `GameAPI._process_story_turn` (parse the
generated text, filter, store with `set_last_turn`, emit): returns the
updated state together with the emitted choice list. -/
def process_story_turn_choices (gs : GameState) (response : List Char)
    (window_active_after_turn can_stay_meaningfully : Bool) :
    GameState × List Choice :=
  let raw_choices := parse_choices response
  let filtered_choices :=
    filter_choices raw_choices window_active_after_turn can_stay_meaningfully
  (gs.set_last_turn response filtered_choices, filtered_choices)

/-- A state holding one stored choice from the previous turn. -/
def C4gs : GameState :=
  { last_choices := [{ id := 'A', text := "Talk to the baker".data }] }

/-! ## Theorems -/

theorem mkRat_3_10_eq : mkRat 3 10 = (3 : ℚ)/10 := by
  rw [Rat.mkRat_eq_div]; norm_num

theorem mkRat_1_2_eq : mkRat 1 2 = (1 : ℚ)/2 := by
  rw [Rat.mkRat_eq_div]; norm_num

theorem mkRat_3_4_eq : mkRat 3 4 = (3 : ℚ)/4 := by
  rw [Rat.mkRat_eq_div]; norm_num

theorem mkRat_9_10_eq : mkRat 9 10 = (9 : ℚ)/10 := by
  rw [Rat.mkRat_eq_div]; norm_num

/-- C1: from a state with no active window, `advance_turn` never opens a
window while the post-increment turns-since-last-window counter is below 7,
opens with probability 0.30 at counter 7, 0.50 at 8, 0.75 at 9 (the window
opens exactly when the roll falls below the scheduled probability), and for
every value of the roll opens a window of duration 3 once the counter
reaches 10 — the turn-10 opening is guaranteed. -/
theorem C1_window_schedule (tm : TimeMachine) (r : ℚ)
    (hact : tm.window_active = false) (h0 : 0 ≤ r) (h1 : r < 1) :
    (tm.turns_since_last_window + 1 < 7 → (tm.advance_turn r).1 = false) ∧
    (tm.turns_since_last_window + 1 = 7 → ((tm.advance_turn r).1 = true ↔ r < 3/10)) ∧
    (tm.turns_since_last_window + 1 = 8 → ((tm.advance_turn r).1 = true ↔ r < 1/2)) ∧
    (tm.turns_since_last_window + 1 = 9 → ((tm.advance_turn r).1 = true ↔ r < 3/4)) ∧
    (10 ≤ tm.turns_since_last_window + 1 →
      (tm.advance_turn r).1 = true ∧ (tm.advance_turn r).2.window_active = true ∧
      (tm.advance_turn r).2.window_turns_remaining = 3) := by
  refine ⟨fun h => ?_, fun h => ?_, fun h => ?_, fun h => ?_, fun h => ?_⟩
  · simp only [TimeMachine.advance_turn, WINDOW_MIN_TURNS, hact]
    norm_num
    rw [if_pos h]
  · simp only [TimeMachine.advance_turn, WINDOW_MIN_TURNS, windowProbLookup, hact, h,
      mkRat_3_10_eq]
    norm_num
    split_ifs with hr <;> simpa using hr
  · simp only [TimeMachine.advance_turn, WINDOW_MIN_TURNS, windowProbLookup, hact, h,
      mkRat_1_2_eq]
    norm_num
    split_ifs with hr <;> simpa using hr
  · simp only [TimeMachine.advance_turn, WINDOW_MIN_TURNS, windowProbLookup, hact, h,
      mkRat_3_4_eq]
    norm_num
    split_ifs with hr <;> simpa using hr
  · simp only [TimeMachine.advance_turn, WINDOW_MIN_TURNS, WINDOW_DURATION_TURNS, hact]
    norm_num
    have h2 : ¬(tm.turns_since_last_window + 1 < (7 : ℤ)) := by omega
    rw [if_neg h2, if_pos h, if_pos h1]
    simp

/-- Concrete state for the C1 witness: counter 9, so the post-increment
counter is 10. -/
def C1wTM : TimeMachine := { turns_since_last_window := 9 }

/-- C1 witness: at counter 10 even a roll of 0.99 opens a window of
duration 3. -/
theorem C1_window_schedule_witness :
    (C1wTM.advance_turn (99/100)).1 = true ∧
    (C1wTM.advance_turn (99/100)).2.window_active = true ∧
    (C1wTM.advance_turn (99/100)).2.window_turns_remaining = 3 :=
  (C1_window_schedule C1wTM (99/100) rfl (by norm_num) (by norm_num)).2.2.2.2 (by decide)

/-- C5 (amended): across every reachable `TimeMachine` state the invariant
`window_active ↔ window_turns_remaining > 0` holds.  (The second half of the
original claim — that `turns_since_last_window` is frozen while a window is
active — fails on the code; see the counterexample.) -/
theorem C5_window_iff_remaining (tm : TimeMachine) (h : TMReachable tm) :
    tm.window_active = true ↔ 0 < tm.window_turns_remaining := by
  induction h with
  | init => simp [TimeMachine.init]
  | step _ hs ih =>
    cases hs with
    | advance r h0 h1 =>
      simp only [TimeMachine.advance_turn]
      split_ifs <;>
        simp_all [TimeMachine.close_window, WINDOW_DURATION_TURNS]
    | travel id =>
      simp only [TimeMachine.travel]
      split_ifs <;> simp_all
    | stay =>
      simp [TimeMachine.choose_to_stay, TimeMachine.close_window]

/-- C5 witness: the invariant instantiated at the initial state. -/
theorem C5_window_iff_remaining_witness :
    TimeMachine.init.window_active = true ↔ 0 < TimeMachine.init.window_turns_remaining :=
  C5_window_iff_remaining TimeMachine.init TMReachable.init

/-- A reachable state with an open window: ten `advance_turn` calls from the
initial state with rolls of 0.9 (the rolls fail at counters 7, 8, 9, and the
counter-10 opening is guaranteed). -/
def C5cexTM : TimeMachine :=
  (fun tm : TimeMachine => (tm.advance_turn (mkRat 9 10)).2)^[10] TimeMachine.init

/-- C5 counterexample: in the reachable state `C5cexTM` the window is
active with `turns_since_last_window = 10`, yet one more `advance_turn`
leaves the window active and changes `turns_since_last_window` to 11 —
the counter is incremented, not frozen, while the window is active. -/
theorem C5_counterexample :
    TMReachable C5cexTM ∧ C5cexTM.window_active = true ∧
    C5cexTM.turns_since_last_window = 10 ∧
    (C5cexTM.advance_turn (mkRat 9 10)).2.window_active = true ∧
    (C5cexTM.advance_turn (mkRat 9 10)).2.turns_since_last_window = 11 := by
  refine ⟨?_, by decide, by decide, by decide, by decide⟩
  have s : ∀ tm : TimeMachine,
      TMReachable tm → TMReachable (tm.advance_turn (mkRat 9 10)).2 :=
    fun tm h => h.step (TMStep.advance tm (mkRat 9 10)
      (by rw [mkRat_9_10_eq]; norm_num) (by rw [mkRat_9_10_eq]; norm_num))
  exact s _ (s _ (s _ (s _ (s _ (s _ (s _ (s _ (s _ (s _ TMReachable.init)))))))))

theorem insertDescBy_perm {α β : Type} [LinearOrder β] (key : α → β) (x : α)
    (l : List α) : List.Perm (insertDescBy key x l) (x :: l) := by
  induction l with
  | nil => exact List.Perm.refl _
  | cons y ys ih =>
    simp only [insertDescBy]
    split_ifs
    · exact List.Perm.refl _
    · exact (ih.cons y).trans (List.Perm.swap x y ys)

theorem sortDescBy_perm {α β : Type} [LinearOrder β] (key : α → β)
    (l : List α) : List.Perm (sortDescBy key l) l := by
  induction l with
  | nil => exact List.Perm.refl _
  | cons x xs ih =>
    exact (insertDescBy_perm key x (sortDescBy key xs)).trans (ih.cons x)

theorem sortDescBy_head_mem {α β : Type} [LinearOrder β] (key : α → β)
    (l : List α) (x : α) (rest : List α)
    (h : sortDescBy key l = x :: rest) : x ∈ l :=
  (sortDescBy_perm key l).mem_iff.mp (h ▸ List.mem_cons_self x rest)

theorem mem_milestoneCandidates_increased (f : FulfillmentState)
    (m : Milestone) (hm : m ∈ milestoneCandidates f) :
    level_increased m.old_level m.new_level = true := by
  simp only [milestoneCandidates, List.mem_append] at hm
  rcases hm with (hm | hm) | hm <;>
    · split_ifs at hm with hinc <;> simp_all

/-- C2: starting from value 0 with empty history, after any sequence of
`adjust` calls the anchor value lies in [0, 100] and the recorded history
deltas sum to the final value; moreover a single `adjust` appends exactly
the actual post-clamp delta (new value minus old value) when it is
non-zero, and nothing otherwise. -/
theorem C2_adjust_invariants :
    (∀ calls : List AdjustCall,
      0 ≤ (applyAdjusts calls).value ∧ (applyAdjusts calls).value ≤ 100 ∧
      ((applyAdjusts calls).history.map (fun h => h.2.2)).sum = (applyAdjusts calls).value) ∧
    (∀ (a : Anchor) (d t : ℤ) (r : String),
      (a.adjust d t r).history =
        a.history ++
          (if (a.adjust d t r).value = a.value then []
           else [(t, r, (a.adjust d t r).value - a.value)])) := by
  constructor
  · have key : ∀ (a : Anchor) (d t : ℤ) (r : String),
        (0 ≤ a.value ∧ a.value ≤ 100 ∧
          (a.history.map (fun h => h.2.2)).sum = a.value) →
        (0 ≤ (a.adjust d t r).value ∧ (a.adjust d t r).value ≤ 100 ∧
          ((a.adjust d t r).history.map (fun h => h.2.2)).sum = (a.adjust d t r).value) := by
      intro a d t r ⟨h1, h2, h3⟩
      simp only [Anchor.adjust]
      refine ⟨by omega, by omega, ?_⟩
      split_ifs with hne
      · simp only [List.map_append, List.sum_append, List.map_cons, List.sum_cons,
          List.map_nil, List.sum_nil, h3]
        omega
      · simp only [h3]
        omega
    have fold : ∀ (calls : List AdjustCall) (a : Anchor),
        (0 ≤ a.value ∧ a.value ≤ 100 ∧
          (a.history.map (fun h => h.2.2)).sum = a.value) →
        (0 ≤ (calls.foldl (fun a c => a.adjust c.delta c.turn c.reason) a).value ∧
          (calls.foldl (fun a c => a.adjust c.delta c.turn c.reason) a).value ≤ 100 ∧
          (((calls.foldl (fun a c => a.adjust c.delta c.turn c.reason) a).history.map
            (fun h => h.2.2)).sum =
            (calls.foldl (fun a c => a.adjust c.delta c.turn c.reason) a).value)) := by
      intro calls
      induction calls with
      | nil => intro a ha; simpa using ha
      | cons c cs ih =>
        intro a ha
        simpa using ih (a.adjust c.delta c.turn c.reason) (key a c.delta c.turn c.reason ha)
    intro calls
    exact fold calls { name := "Belonging" } (by simp)
  · intro a d t r
    simp only [Anchor.adjust]
    split_ifs with h1 h2 h2 <;> simp_all <;> omega

/-- C10: an `adjust` call whose post-clamp applied delta is zero leaves the
history list (and the value) completely unchanged — no entry is appended. -/
theorem C10_zero_delta_frame (a : Anchor) (d t : ℤ) (r : String)
    (h : max 0 (min 100 (a.value + d)) = a.value) :
    (a.adjust d t r).history = a.history ∧ (a.adjust d t r).value = a.value := by
  simp [Anchor.adjust, h]

/-- C10 witness: a positive delta at value 100 changes nothing. -/
theorem C10_zero_delta_frame_witness :
    (({ name := "Freedom", value := 100, history := [] } : Anchor).adjust 5 3 "gift").history
        = [] ∧
    (({ name := "Freedom", value := 100, history := [] } : Anchor).adjust 5 3 "gift").value
        = 100 :=
  C10_zero_delta_frame { name := "Freedom", value := 100, history := [] } 5 3 "gift"
    (by decide)

/-- C7 (amended): `dominant_anchor` returns the anchor of maximal value
with ties broken in the fixed order belonging, legacy, freedom (the
first-listed anchor among those attaining the maximum), and `none` exactly
when the maximal value is not positive — not `none` on every tie. -/
theorem C7_dominant_anchor_characterization (f : FulfillmentState) :
    f.dominant_anchor =
      (if f.legacy.value ≤ f.belonging.value ∧ f.freedom.value ≤ f.belonging.value then
        (if 0 < f.belonging.value then some "belonging" else none)
      else if f.freedom.value ≤ f.legacy.value then
        (if 0 < f.legacy.value then some "legacy" else none)
      else
        (if 0 < f.freedom.value then some "freedom" else none)) := by
  simp only [FulfillmentState.dominant_anchor, sortDescBy, insertDescBy]
  split_ifs <;> simp_all [insertDescBy]
  all_goals try (split_ifs <;> simp_all)
  all_goals omega

/-- C7 counterexample: with belonging = legacy = 50 and freedom = 0 the
maximum is attained by two anchors, yet `dominant_anchor` returns
`some "belonging"` rather than `none`. -/
theorem C7_counterexample :
    C7cexFS.belonging.value = C7cexFS.legacy.value ∧
    C7cexFS.belonging.value = 50 ∧ C7cexFS.freedom.value = 0 ∧
    C7cexFS.dominant_anchor = some "belonging" := by decide

/-- C9 (amended): `check_milestone_crossed` reports a milestone only for a
strict level increase relative to the levels recorded at the previous
check (never for a decrease), and immediately after an era transition —
whose decay resets the recorded levels — a check reports nothing, so the
decay-induced drop itself is never reported.  (The "at most once per
threshold per initialize-cycle" half of the original claim fails: after a
drop and re-climb the same threshold is reported again; see the
counterexample.) -/
theorem C9_milestone_monotone :
    (∀ (f : FulfillmentState) (m : Milestone) (f' : FulfillmentState),
      f.check_milestone_crossed = (some m, f') →
      levelOrderIdx m.old_level < levelOrderIdx m.new_level) ∧
    (∀ f : FulfillmentState,
      f.transition_to_new_era.check_milestone_crossed.1 = none) := by
  constructor
  · intro f m f' h
    simp only [FulfillmentState.check_milestone_crossed] at h
    cases hs : sortDescBy (fun m => levelOrderIdx m.new_level) (milestoneCandidates f) with
    | nil => rw [hs] at h; simp at h
    | cons top rest =>
      rw [hs] at h
      simp only [Prod.mk.injEq, Option.some.injEq] at h
      have hmem : top ∈ milestoneCandidates f :=
        sortDescBy_head_mem _ (milestoneCandidates f) top rest hs
      have hinc := mem_milestoneCandidates_increased f top hmem
      rw [← h.1]
      simpa [level_increased] using hinc
  · intro f
    simp [FulfillmentState.check_milestone_crossed, milestoneCandidates,
      FulfillmentState.transition_to_new_era, level_increased, sortDescBy]

/-- C9 witness: the first check of the concrete trace reports a strict
increase. -/
theorem C9_milestone_monotone_witness :
    levelOrderIdx AnchorLevel.NONE < levelOrderIdx AnchorLevel.EMERGING :=
  C9_milestone_monotone.1 C9s1 C9emergingMilestone C9c1.2 (by decide)

/-- C9 counterexample: within a single initialize-cycle the same threshold
(belonging reaching "emerging") is reported twice — after +20 it is
reported, after −20 nothing is reported, and after +20 again the very same
milestone is reported a second time. -/
theorem C9_counterexample :
    C9c1.1 = some C9emergingMilestone ∧
    C9c2.1 = none ∧
    C9c3.1 = some C9emergingMilestone := by decide

/-- C3 (amended): era retention multiplies belonging by 0.20, legacy by
0.50 and freedom by 0.60 with Python `int(value * rate)` truncation, and
it is applied on *every* era entry that leaves a current era behind —
including the session's very first era, because the departed era is saved
into the history before the non-empty-history check; only the very first
era entry of a session (no current era, empty history) skips retention. -/
theorem C3_retention_on_every_departure (gs : GameState) (era : EraInfo) :
    (gs.current_era = none → gs.era_history = [] →
      (gs.enter_era era).fulfillment = gs.fulfillment) ∧
    (∀ e : EraState, gs.current_era = some e →
      ((gs.enter_era era).fulfillment.belonging.value
          = pyIntTrunc ((gs.fulfillment.belonging.value : ℚ) * (0.2 : ℚ)) ∧
        (gs.enter_era era).fulfillment.legacy.value
          = pyIntTrunc ((gs.fulfillment.legacy.value : ℚ) * (0.5 : ℚ)) ∧
        (gs.enter_era era).fulfillment.freedom.value
          = pyIntTrunc ((gs.fulfillment.freedom.value : ℚ) * (0.6 : ℚ)))) := by
  constructor
  · intro h1 h2
    simp [GameState.enter_era, GameState.save_era_to_history, h1, h2]
  · intro e he
    simp [GameState.enter_era, GameState.save_era_to_history, he,
      FulfillmentState.transition_to_new_era, Anchor.reset_for_new_era]

/-- C3 witness: entering the very first era of a fresh session leaves the
fulfillment state untouched. -/
theorem C3_retention_witness :
    (C3freshGS.enter_era C3newEra).fulfillment = C3freshGS.fulfillment :=
  (C3_retention_on_every_departure C3freshGS C3newEra).1 rfl rfl

/-- C3 counterexample: leaving the session's very first era (current era
present, era history still empty) *does* trigger retention — anchors
77 / 60 / 50 become 15 / 30 / 30 — contradicting the claim that leaving
the first era never triggers retention. -/
theorem C3_counterexample :
    C3gs.era_history = [] ∧ C3gs.current_era.isSome = true ∧
    C3gs.fulfillment.belonging.value = 77 ∧
    C3gs.fulfillment.legacy.value = 60 ∧
    C3gs.fulfillment.freedom.value = 50 ∧
    (C3gs.enter_era C3newEra).fulfillment.belonging.value = 15 ∧
    (C3gs.enter_era C3newEra).fulfillment.legacy.value = 30 ∧
    (C3gs.enter_era C3newEra).fulfillment.freedom.value = 30 := by
  refine ⟨rfl, rfl, rfl, rfl, rfl, ?_, ?_, ?_⟩ <;>
  · simp [C3gs, C3newEra, GameState.enter_era, GameState.save_era_to_history,
      FulfillmentState.transition_to_new_era, Anchor.reset_for_new_era, pyIntTrunc]
    norm_num

/-- C6: with the window closed every text resolves to `Continue`; with the
window open, a text matching at least one pattern from both lists resolves
to `Leave` (the LEAVE list is tried first), and a text matching no pattern
from either list resolves to `Continue`. -/
theorem C6_detect_intent :
    (∀ t : List Char, detect_choice_intent t false = .CONTINUE_STORY) ∧
    (∀ t : List Char, leave_match t = true → stay_forever_match t = true →
      detect_choice_intent t true = .LEAVE_ERA) ∧
    (∀ t : List Char, leave_match t = false → stay_forever_match t = false →
      detect_choice_intent t true = .CONTINUE_STORY) := by
  refine ⟨fun t => rfl, fun t h1 h2 => ?_, fun t h1 h2 => ?_⟩
  · cases t with
    | nil => exact absurd h1 (by decide)
    | cons c cs => simp [detect_choice_intent, h1]
  · cases t with
    | nil => rfl
    | cons c cs => simp [detect_choice_intent, h1, h2]

/-- C6 witness: a concrete text matching both lists resolves to Leave
while the window is open. -/
theorem C6_detect_intent_witness :
    detect_choice_intent C6bothText true = .LEAVE_ERA :=
  C6_detect_intent.2.1 C6bothText (by decide) (by decide)

theorem pyLower_eq_lt {c : Char} (h : pyLower c = '<') : c = '<' := by
  unfold pyLower at h
  split at h <;> first | exact h | exact absurd h (by decide)

theorem ciStartsWith_head_lt {ts : List Char} {c : Char} {cs : List Char}
    (hc : c ≠ '<') : ciStartsWith ('<' :: ts) (c :: cs) = false := by
  have hb : ('<' == pyLower c) = false := by
    refine beq_eq_false_iff_ne.mpr fun heq => ?_
    exact hc (pyLower_eq_lt heq.symm)
  simp [ciStartsWith, hb]

theorem stripTagOccAux_no_lt (openRest closeT : List Char) (mk : TagMiddle) :
    ∀ (fuel : Nat) (s : List Char), '<' ∉ s →
      stripTagOccAux '<' openRest closeT mk fuel s = s := by
  intro fuel
  induction fuel with
  | zero => intro s _; rfl
  | succ f ih =>
    intro s h
    cases s with
    | nil => rfl
    | cons c r =>
      have hc : c ≠ '<' := fun hceq => h (hceq ▸ List.mem_cons_self c r)
      have hr : '<' ∉ r := fun hm => h (List.mem_cons_of_mem c hm)
      simp only [stripTagOccAux, ciStartsWith_head_lt hc, Bool.false_eq_true,
        if_false, ih r hr]

theorem stripTagOcc_no_lt (openRest closeT : List Char) (mk : TagMiddle)
    (s : List Char) (h : '<' ∉ s) : stripTagOcc '<' openRest closeT mk s = s :=
  stripTagOccAux_no_lt openRest closeT mk s.length s h

theorem blankSubAux_no_match :
    ∀ (fuel : Nat) (s : List Char), hasBlankRun s = false →
      blankSubAux fuel s = s := by
  intro fuel
  induction fuel with
  | zero => intro s _; rfl
  | succ f ih =>
    intro s h
    cases s with
    | nil => rfl
    | cons c r =>
      simp only [hasBlankRun, Bool.or_eq_false_iff] at h
      simp only [blankSubAux, h.1, Bool.false_eq_true, if_false, ih r h.2]

theorem blankSub_no_match (s : List Char) (h : hasBlankRun s = false) :
    blankSub s = s :=
  blankSubAux_no_match s.length s h

theorem dropWhile_length_le (p : Char → Bool) :
    ∀ l : List Char, (List.dropWhile p l).length ≤ l.length := by
  intro l
  induction l with
  | nil => simp
  | cons c r ih =>
    rw [List.dropWhile_cons]
    split_ifs
    · exact le_trans ih (by simp)
    · simp

open List in
theorem pyStrip_idem (s : List Char) : pyStrip (pyStrip s) = pyStrip s := by
  unfold pyStrip
  have h1 : List.dropWhile pyIsSpace
      (List.rdropWhile pyIsSpace (List.dropWhile pyIsSpace s))
      = List.rdropWhile pyIsSpace (List.dropWhile pyIsSpace s) := by
    cases hB : List.rdropWhile pyIsSpace (List.dropWhile pyIsSpace s) with
    | nil => rfl
    | cons b bs =>
      have hpre : List.rdropWhile pyIsSpace (List.dropWhile pyIsSpace s)
          <+: List.dropWhile pyIsSpace s := rdropWhile_prefix _ _
      rw [hB] at hpre
      obtain ⟨t, ht⟩ := hpre
      have hb : pyIsSpace b = false := by
        have hds : List.dropWhile pyIsSpace (List.dropWhile pyIsSpace s)
            = List.dropWhile pyIsSpace s := List.dropWhile_idempotent _ _
        rw [← ht] at hds
        by_contra hbc
        rw [Bool.not_eq_false] at hbc
        rw [List.cons_append, List.dropWhile_cons, if_pos hbc] at hds
        have hlen := congrArg List.length hds
        have hle : (List.dropWhile pyIsSpace (bs ++ t)).length ≤ (bs ++ t).length :=
          dropWhile_length_le _ _
        simp at hlen hle
        omega
      simp [List.dropWhile_cons, hb]
  rw [h1, List.rdropWhile_idempotent]

/-- C8 (amended): the composed tag stripping is *not* idempotent on all
text — removing a tag can splice the surrounding characters into a
brand-new tag (see the counterexample) — but stripping already-clean text
is a no-op: whenever the stripped text contains no `<` (hence no tag
opening) and no multi-blank-line artifact, stripping it again returns it
unchanged. -/
theorem C8_stripTags_idempotent_on_clean (x : List Char)
    (h1 : '<' ∉ stripTags x) (h2 : hasBlankRun (stripTags x) = false) :
    stripTags (stripTags x) = stripTags x := by
  have hps : pyStrip (stripTags x) = stripTags x :=
    pyStrip_idem (blankSub (stripTagOcc '<' "wisdom>".data "</wisdom>".data .nonLt
      (stripTagOcc '<' "key_npc>".data "</key_npc>".data .nonLt
        (stripTagOcc '<' "character_name>".data "</character_name>".data .nonLt
          (strip_anchor_tags x)))))
  have hA : strip_anchor_tags (stripTags x) = stripTags x := by
    unfold strip_anchor_tags
    rw [stripTagOcc_no_lt _ _ _ _ h1, hps]
  have hB : strip_event_tags (stripTags x) = stripTags x := by
    simp only [strip_event_tags]
    rw [stripTagOcc_no_lt _ _ _ _ h1, stripTagOcc_no_lt _ _ _ _ h1,
      stripTagOcc_no_lt _ _ _ _ h1, blankSub_no_match _ h2, hps]
  show strip_event_tags (strip_anchor_tags (stripTags x)) = stripTags x
  rw [hA, hB]

/-- C8 witness: a concrete narrative with one wisdom tag strips to clean
text, and stripping again is a no-op. -/
theorem C8_stripTags_idempotent_witness :
    stripTags (stripTags C8cleanSample) = stripTags C8cleanSample :=
  C8_stripTags_idempotent_on_clean C8cleanSample (by decide) (by decide)

/-- C8 counterexample: stripping `"<anch<anchors>hidden</anchors>ors>text</anchors>"`
removes the inner anchors tag and splices the remainder into a new
`<anchors>` tag, which only a second strip removes — so
`stripTags (stripTags x) ≠ stripTags x`. -/
theorem C8_counterexample :
    stripTags C8cex = "<anchors>text</anchors>".data ∧
    stripTags (stripTags C8cex) = [] ∧
    stripTags (stripTags C8cex) ≠ stripTags C8cex :=
  ⟨by decide, by decide, by decide⟩

/-- C4 (amended): when a story turn's generated text yields no usable
choices after parsing and filtering, the coordinator *stores and emits the
empty set*: `set_last_turn` overwrites the previous turn's stored choices
unconditionally, and no fallback re-offers them. -/
theorem C4_empty_choices_overwrite (gs : GameState) (response : List Char)
    (w c : Bool)
    (h : filter_choices (parse_choices response) w c = []) :
    (process_story_turn_choices gs response w c).1.last_choices = [] ∧
    (process_story_turn_choices gs response w c).2 = [] := by
  simp [process_story_turn_choices, GameState.set_last_turn, h]

/-- C4 witness: empty generated text parses to no choices, and the
coordinator stores and emits the empty set. -/
theorem C4_empty_choices_overwrite_witness :
    (process_story_turn_choices C4gs [] false false).1.last_choices = [] ∧
    (process_story_turn_choices C4gs [] false false).2 = [] :=
  C4_empty_choices_overwrite C4gs [] false false (by decide)

/-- C4 counterexample: with a non-empty stored choice set and generated
text that parses to no choices, the stored set is replaced by the empty
set and the empty set is emitted — the previous choices are *not*
re-offered, contradicting the claim. -/
theorem C4_counterexample :
    C4gs.last_choices ≠ [] ∧
    parse_choices [] = [] ∧
    (process_story_turn_choices C4gs [] false false).1.last_choices = [] ∧
    (process_story_turn_choices C4gs [] false false).1.last_choices ≠ C4gs.last_choices ∧
    (process_story_turn_choices C4gs [] false false).2 = [] :=
  ⟨by decide, by decide, by decide, by decide, by decide⟩

end Anachron
